import Mathlib

/-!
Verification of the ECHO knowledge-graph backend (src/backend/main.py).

The development shallowly embeds the two algorithmic components of the
repository:

* `summarize_with_gemini` (main.py lines 71-145): the summary normalizer.
  The external Gemini call is modelled by an `Option String` argument
  (`none` models the call raising an exception, `some r` models a raw
  textual response `r`).  The Python `json` module is modelled by an
  executable JSON value type, parser (`loads`) and serializer (`dumps`).
* the relatedness edge builder inside `get_nodes` (main.py lines 209-266),
  including pagination (Python list slicing) and the Jaccard similarity
  scoring over `key_concepts` and `methods_used`.

Modelling conventions and known deviations from CPython, none of which are
exercised by the repository's data:
* numbers: Python floats are modelled by exact rationals `ℚ`; the edge
  weight `intersection / union` and the `0.1` threshold are exact rational
  arithmetic here.  For set sizes below about `10^16` the float and the
  rational comparison against `0.1` agree, so the model is faithful at
  every realistic population size.
* the JSON parser accepts integer literals only (no fraction or exponent
  part, no NaN or Infinity) and rejects `\u` escapes in the surrogate
  range; Python would accept those.  Duplicate object keys are kept as-is
  in order of appearance instead of last-wins.  Nesting is bounded by the
  input length (Python instead raises RecursionError at extreme depth,
  which the outer handler of `summarize_with_gemini` would also catch).
* the serializer `dumps` writes the default CPython separators
  (`", "` and `": "`) and escapes exactly the mandatory characters,
  matching `json.dumps(..., ensure_ascii=False)`.
* `pyStrip` models `str.strip()` on the ASCII whitespace characters.
-/

/-! ## JSON values (model of Python dict / list / str / int / bool / None) -/

inductive Json where
  | null : Json
  | bool : Bool → Json
  | num : Int → Json
  | str : String → Json
  | arr : List Json → Json
  | obj : List (String × Json) → Json

/-! ## Lexical helpers for the `json.loads` model -/

/-- The JSON whitespace characters skipped by the CPython decoder:
space, horizontal tab, line feed, carriage return. -/
def isWsChar (c : Char) : Bool :=
  c.toNat = 32 || c.toNat = 9 || c.toNat = 10 || c.toNat = 13

def skipWs : List Char → List Char
  | [] => []
  | c :: cs => if isWsChar c then skipWs cs else c :: cs

/-- Consume an expected literal character sequence, returning the remainder. -/
def dropPre : List Char → List Char → Option (List Char)
  | [], cs => some cs
  | _ :: _, [] => none
  | p :: ps, c :: cs => if c = p then dropPre ps cs else none

def isDigitCh (c : Char) : Bool := 48 ≤ c.toNat && c.toNat ≤ 57

/-- Split the maximal leading run of decimal digits from the input. -/
def takeDigits : List Char → List Char × List Char
  | [] => ([], [])
  | c :: cs =>
    if isDigitCh c then ((takeDigits cs).1.cons c, (takeDigits cs).2)
    else ([], c :: cs)

def digitsVal (ds : List Char) : Nat :=
  ds.foldl (fun a c => 10 * a + (c.toNat - 48)) 0

/-- An unsigned integer token per the CPython JSON number grammar restricted
to integers: either a single `0`, or a nonzero digit followed by a maximal
digit run.  A leading zero is not extended (`01` stops after the `0`). -/
def parseNatTok : List Char → Option (Nat × List Char)
  | [] => none
  | c :: cs =>
    if c = '0' then some (0, cs)
    else if isDigitCh c then
      some (digitsVal ((takeDigits cs).1.cons c), (takeDigits cs).2)
    else none

/-- A signed integer token: optional minus sign, then an unsigned token. -/
def parseNumber : List Char → Option (Int × List Char)
  | [] => none
  | c :: cs =>
    if c = '-' then (parseNatTok cs).map (fun p => (-(p.1 : Int), p.2))
    else (parseNatTok (c :: cs)).map (fun p => ((p.1 : Int), p.2))

def isHexCh (c : Char) : Bool :=
  isDigitCh c || (97 ≤ c.toNat && c.toNat ≤ 102) || (65 ≤ c.toNat && c.toNat ≤ 70)

def hexVal (c : Char) : Nat :=
  if isDigitCh c then c.toNat - 48
  else if 97 ≤ c.toNat then c.toNat - 87
  else c.toNat - 55

def consStrRes (c : Char) (o : Option (List Char × List Char)) :
    Option (List Char × List Char) :=
  o.map (fun p => (c :: p.1, p.2))

/-!
Body of a JSON string after its opening quote, per the CPython strict
scanner: raw control characters (code below 32) are rejected, the short
escapes and `\uXXXX` are decoded (`parseEscSeq`, `parseUEsc`).  `\u`
escapes in the surrogate range are rejected here (a model restriction, see
the header).
-/

mutual

def parseStringBody : List Char → Option (List Char × List Char)
  | [] => none
  | c :: cs =>
    if c = '"' then some ([], cs)
    else if c = '\\' then parseEscSeq cs
    else if c.toNat < 32 then none
    else consStrRes c (parseStringBody cs)

def parseEscSeq : List Char → Option (List Char × List Char)
  | [] => none
  | e :: cs2 =>
    if e = '"' then consStrRes '"' (parseStringBody cs2)
    else if e = '\\' then consStrRes '\\' (parseStringBody cs2)
    else if e = '/' then consStrRes '/' (parseStringBody cs2)
    else if e = 'b' then consStrRes '\x08' (parseStringBody cs2)
    else if e = 'f' then consStrRes '\x0c' (parseStringBody cs2)
    else if e = 'n' then consStrRes '\n' (parseStringBody cs2)
    else if e = 'r' then consStrRes '\r' (parseStringBody cs2)
    else if e = 't' then consStrRes '\t' (parseStringBody cs2)
    else if e = 'u' then parseUEsc cs2
    else none

def parseUEsc : List Char → Option (List Char × List Char)
  | h1 :: h2 :: h3 :: h4 :: cs3 =>
    if isHexCh h1 && isHexCh h2 && isHexCh h3 && isHexCh h4 then
      let code := ((hexVal h1 * 16 + hexVal h2) * 16 + hexVal h3) * 16 + hexVal h4
      if 55296 ≤ code ∧ code ≤ 57343 then none
      else consStrRes (Char.ofNat code) (parseStringBody cs3)
    else none
  | _ => none

end

/-! ## The recursive JSON parser (model of `json.loads`)

Fuel decreases at every recursive call; since each level of structure
consumes at least one input character, `length + 1` fuel never runs out. -/

mutual

def parseValue : Nat → List Char → Option (Json × List Char)
  | 0, _ => none
  | fuel + 1, cs =>
    match skipWs cs with
    | [] => none
    | c :: rest =>
      if c = '"' then
        (parseStringBody rest).map (fun p => (Json.str (String.mk p.1), p.2))
      else if c = '\x7b' then
        match skipWs rest with
        | [] => none
        | c2 :: rest2 =>
          if c2 = '\x7d' then some (Json.obj [], rest2)
          else (parseMembers fuel rest).map (fun p => (Json.obj p.1, p.2))
      else if c = '[' then
        match skipWs rest with
        | [] => none
        | c2 :: rest2 =>
          if c2 = ']' then some (Json.arr [], rest2)
          else (parseElems fuel rest).map (fun p => (Json.arr p.1, p.2))
      else if c = 'n' then (dropPre ['u', 'l', 'l'] rest).map (fun r => (Json.null, r))
      else if c = 't' then (dropPre ['r', 'u', 'e'] rest).map (fun r => (Json.bool true, r))
      else if c = 'f' then
        (dropPre ['a', 'l', 's', 'e'] rest).map (fun r => (Json.bool false, r))
      else if c = '-' || isDigitCh c then
        (parseNumber (c :: rest)).map (fun p => (Json.num p.1, p.2))
      else none

def parseElems : Nat → List Char → Option (List Json × List Char)
  | 0, _ => none
  | fuel + 1, cs =>
    match parseValue fuel cs with
    | none => none
    | some (v, r1) =>
      match skipWs r1 with
      | ',' :: r2 => (parseElems fuel r2).map (fun p => (v :: p.1, p.2))
      | ']' :: r2 => some ([v], r2)
      | _ => none

def parseMembers : Nat → List Char → Option (List (String × Json) × List Char)
  | 0, _ => none
  | fuel + 1, cs =>
    match skipWs cs with
    | '"' :: r1 =>
      match parseStringBody r1 with
      | none => none
      | some (key, r2) =>
        match skipWs r2 with
        | ':' :: r3 =>
          match parseValue fuel r3 with
          | none => none
          | some (v, r4) =>
            match skipWs r4 with
            | ',' :: r5 => (parseMembers fuel r5).map (fun p => ((String.mk key, v) :: p.1, p.2))
            | '\x7d' :: r5 => some ([(String.mk key, v)], r5)
            | _ => none
        | _ => none
    | _ => none

end

/-- Model of `json.loads` on a character list: one complete value, optionally framed
by whitespace; anything else is a decode error (`none`). -/
def loads (cs : List Char) : Option Json :=
  match parseValue (cs.length + 1) cs with
  | some (v, rest) => if skipWs rest = [] then some v else none
  | none => none

/-! ## The JSON serializer (model of `json.dumps`) -/

def digitCh (n : Nat) : Char := Char.ofNat (48 + n)

def hexCh (n : Nat) : Char := if n < 10 then Char.ofNat (48 + n) else Char.ofNat (87 + n)

/-- Decimal digits of `n`, most significant first, prepended to `acc`.
Structurally recursive on a fuel bound so that it reduces in the kernel;
fuel `n + 1` always suffices. -/
def natDigitsAux : Nat → Nat → List Char → List Char
  | 0, _, acc => acc
  | fuel + 1, n, acc =>
    if n < 10 then digitCh n :: acc
    else natDigitsAux fuel (n / 10) (digitCh (n % 10) :: acc)

def natDigits (n : Nat) : List Char := natDigitsAux (n + 1) n []

/-- The characters of `str(i)` for a Python int. -/
def intChars : Int → List Char
  | Int.ofNat n => natDigits n
  | Int.negSucc m => '-' :: natDigits (m + 1)

/-- One string character, escaped as `json.dumps` writes it: the two
mandatory escapes, the five short control escapes, `\u00xx` for the other
control characters, everything else verbatim. -/
def escChar (c : Char) : List Char :=
  if c = '"' then ['\\', '"']
  else if c = '\\' then ['\\', '\\']
  else if c = '\n' then ['\\', 'n']
  else if c = '\r' then ['\\', 'r']
  else if c = '\t' then ['\\', 't']
  else if c = '\x08' then ['\\', 'b']
  else if c = '\x0c' then ['\\', 'f']
  else if c.toNat < 32 then
    ['\\', 'u', '0', '0', hexCh (c.toNat / 16), hexCh (c.toNat % 16)]
  else [c]

def escList : List Char → List Char
  | [] => []
  | c :: cs => escChar c ++ escList cs

def dumpsStr (s : String) : List Char := '"' :: (escList s.data ++ ['"'])

mutual

def dumpsL : Json → List Char
  | Json.null => ['n', 'u', 'l', 'l']
  | Json.bool true => ['t', 'r', 'u', 'e']
  | Json.bool false => ['f', 'a', 'l', 's', 'e']
  | Json.num n => intChars n
  | Json.str s => dumpsStr s
  | Json.arr vs => '[' :: (dumpsElems vs ++ [']'])
  | Json.obj kvs => '\x7b' :: (dumpsMembers kvs ++ ['\x7d'])

def dumpsElems : List Json → List Char
  | [] => []
  | [v] => dumpsL v
  | v :: v2 :: vs => dumpsL v ++ ',' :: ' ' :: dumpsElems (v2 :: vs)

def dumpsMembers : List (String × Json) → List Char
  | [] => []
  | [(k, v)] => dumpsStr k ++ ':' :: ' ' :: dumpsL v
  | (k, v) :: kv2 :: kvs =>
    dumpsStr k ++ ':' :: ' ' :: dumpsL v ++ ',' :: ' ' :: dumpsMembers (kv2 :: kvs)

end

/-- Model of `json.dumps` with the default separators. -/
def dumps (v : Json) : String := String.mk (dumpsL v)

/-! ## Dictionary access (model of `dict` lookup and `dict.get`) -/

def lookupKV : List (String × Json) → String → Option Json
  | [], _ => none
  | (k, v) :: rest, key => if k = key then some v else lookupKV rest key

def jsonLookup (v : Json) (key : String) : Option Json :=
  match v with
  | Json.obj kvs => lookupKV kvs key
  | _ => none

/-- Model of `d.get(key, default)`. -/
def jsonGet (v : Json) (key : String) (default : Json) : Json :=
  (jsonLookup v key).getD default

/-- Whether a value is a JSON object carrying all four `StructuredSummary`
fields (the shape §3 of the specification promises unconditionally). -/
def hasSummaryShape (v : Json) : Bool :=
  (jsonLookup v "key_concepts").isSome && (jsonLookup v "methods_used").isSome &&
    (jsonLookup v "related_topics").isSome && (jsonLookup v "insights").isSome

/-! ## The summary normalizer (model of `summarize_with_gemini`) -/

/-- The ASCII whitespace stripped by Python `str.strip()`: the four JSON
whitespace characters plus vertical tab and form feed. -/
def isPySpace (c : Char) : Bool :=
  isWsChar c || c.toNat = 11 || c.toNat = 12

/-- Model of `text.strip()` on a character list. -/
def pyStrip (cs : List Char) : List Char :=
  ((cs.dropWhile isPySpace).reverse.dropWhile isPySpace).reverse

/-- The placeholder returned for source text under 20 stripped characters
(main.py lines 77-82). -/
def tooShortSummary : Json :=
  Json.obj
    [("key_concepts", Json.arr [Json.str "content analysis"]),
     ("methods_used", Json.arr [Json.str "text processing"]),
     ("related_topics", Json.arr [Json.str "knowledge extraction"]),
     ("insights", Json.str "Content too short to analyze")]

/-- The fallback returned when no JSON span can be extracted or parsed from
the raw response (main.py lines 130-135).  Mirrors the Python truthiness
test `response_text[:150] if response_text else ...`. -/
def fallbackSummary (response_text : String) : Json :=
  Json.obj
    [("key_concepts", Json.arr [Json.str "analysis", Json.str "summary"]),
     ("methods_used", Json.arr [Json.str "text processing"]),
     ("related_topics", Json.arr [Json.str "information extraction"]),
     ("insights",
       Json.str (if response_text.data = [] then "Content captured successfully"
                 else response_text.take 150))]

/-- The placeholder returned when the external call raises (main.py
lines 140-145). -/
def errorSummary : Json :=
  Json.obj
    [("key_concepts", Json.arr [Json.str "source analysis"]),
     ("methods_used", Json.arr [Json.str "content extraction"]),
     ("related_topics", Json.arr [Json.str "knowledge graphs"]),
     ("insights",
       Json.str "Content captured successfully. AI summarization failed - using placeholder.")]

def pyFindAux : List Char → Char → Nat → Option Nat
  | [], _, _ => none
  | x :: xs, c, i => if x = c then some i else pyFindAux xs c (i + 1)

/-- Model of `s.find(c)` as an `Option` (Python returns `-1` for absence). -/
def pyFind (cs : List Char) (c : Char) : Option Nat := pyFindAux cs c 0

/-- Model of `s.rfind(c)` as an `Option`: index of the last occurrence. -/
def pyRfind (cs : List Char) (c : Char) : Option Nat :=
  (pyFind cs.reverse c).map (fun k => cs.length - 1 - k)

/-- The span from the first `\x7b` to the last `\x7d` inclusive
(main.py lines 116-120): `json_start = find`, `json_end = rfind + 1`,
guarded by `json_start != -1 and json_end > json_start`. -/
def extractJsonSpan (cs : List Char) : Option (List Char) :=
  match pyFind cs '\x7b', pyRfind cs '\x7d' with
  | some js, some je =>
    if js < je + 1 then some ((cs.drop js).take (je + 1 - js)) else none
  | some _, none => none
  | none, _ => none

/-- Model of `summarize_with_gemini(text)` (main.py lines 71-145), with the Gemini
call's outcome made explicit: `resp = none` models the call (or the
response accessor) raising, `resp = some r` models a raw response `r`.
Note that a successfully parsed span is returned as-is, with no check for
the four required fields. -/
def summarize_with_gemini (text : String) (resp : Option String) : Json :=
  if text.data = [] ∨ (pyStrip text.data).length < 20 then tooShortSummary
  else
    match resp with
    | none => errorSummary
    | some response_text =>
      match extractJsonSpan response_text.data with
      | some span =>
        match loads span with
        | some parsed => parsed
        | none => fallbackSummary response_text
      | none => fallbackSummary response_text

/-! ## The relatedness graph builder (model of the edge loop in `get_nodes`)

The builder reads only `id`, `summary.key_concepts` and
`summary.methods_used` of each stored node; the projection used here keeps
the whole summary so that the claims about `related_topics` can be stated. -/

structure StructuredSummary where
  key_concepts : List String
  methods_used : List String
  related_topics : List String
  insights : String
deriving DecidableEq, Inhabited

structure ContentItem where
  id : Int
  summary : StructuredSummary
deriving DecidableEq, Inhabited

structure RelatednessEdge where
  source : Int
  target : Int
  weight : ℚ
deriving DecidableEq

/-- Model of `set(node.summary.key_concepts) | set(node.summary.methods_used)`. -/
def combined (n : ContentItem) : Finset String :=
  n.summary.key_concepts.toFinset ∪ n.summary.methods_used.toFinset

/-- Jaccard similarity of the combined concept/method sets, as an exact
rational. -/
def jaccard (a b : ContentItem) : ℚ :=
  ((combined a ∩ combined b).card : ℚ) / ((combined a ∪ combined b).card : ℚ)

/-- The `similarity` local of the loop body:
`intersection / union if union > 0 else 0`. -/
def similarity (a b : ContentItem) : ℚ :=
  if 0 < (combined a ∪ combined b).card then jaccard a b else 0

/-- The loop body for one index pair (main.py lines 229-256): an edge is
appended iff both combined sets are truthy (nonempty) and the similarity
reaches the `0.1` threshold. -/
def pairEdge (a b : ContentItem) : Option RelatednessEdge :=
  if combined a ≠ ∅ ∧ combined b ≠ ∅ then
    if (1 : ℚ) / 10 ≤ similarity a b then some ⟨a.id, b.id, similarity a b⟩ else none
  else none

/-- The index pairs visited by `for i in range(n): for j in range(i+1, n)`,
in iteration order. -/
def pairsUpTo (n : Nat) : List (Nat × Nat) :=
  (List.range n).flatMap (fun i => (List.range' (i + 1) (n - (i + 1))).map (fun j => (i, j)))

def defaultItem : ContentItem := ⟨0, ⟨[], [], [], ""⟩⟩

/-- The full edge list built over the whole node population
(main.py lines 222-257). -/
def buildEdges (nodes : List ContentItem) : List RelatednessEdge :=
  (pairsUpTo nodes.length).filterMap
    (fun p => pairEdge (nodes.getD p.1 defaultItem) (nodes.getD p.2 defaultItem))

/-- Normalize one bound of a Python slice `l[a:b]` to a position in
`0..n`: negative indices count from the end, then both ends clamp. -/
def pySliceNorm (n : Nat) (i : Int) : Nat :=
  if i < 0 then ((n : Int) + i).toNat else min i.toNat n

/-- Python list slicing `xs[a:b]`. -/
def pySlice {α : Type} (xs : List α) (a b : Int) : List α :=
  (xs.take (pySliceNorm xs.length b)).drop (pySliceNorm xs.length a)

structure GetNodesResult where
  nodes : List ContentItem
  edges : List RelatednessEdge
  total : Nat
  limit : Int
  offset : Int

/-- The `get_nodes` endpoint (main.py lines 209-266): the node page is
`nodes[offset:offset+limit]`, while the edges are always built over the
entire population. -/
def get_nodes (db : List ContentItem) (limit offset : Int) : GetNodesResult :=
  { nodes := pySlice db offset (offset + limit)
    edges := buildEdges db
    total := db.length
    limit := limit
    offset := offset }

/-- Canonical unordered form of an edge, for comparing the two input
orders of a pair. -/
def canonEdge (e : RelatednessEdge) : Int × Int × ℚ :=
  (min e.source e.target, max e.source e.target, e.weight)

/-- Two stored nodes that agree on everything the claim fixes: same id and
same summary except possibly `related_topics`. -/
def eqExceptRelated (a b : ContentItem) : Prop :=
  a.id = b.id ∧ a.summary.key_concepts = b.summary.key_concepts ∧
    a.summary.methods_used = b.summary.methods_used ∧ a.summary.insights = b.summary.insights

/-! ## Node creation (model of `add_source`, main.py lines 176-186) -/

structure StoredNode where
  id : Int
  title : String
  content : String
  full_content : String
  source : String
  source_type : String
  summary : Json
  created_at : String
  tags : Json

/-- The node dictionary built by `add_source` once the content and the
summary are in hand: `tags` is `summary.get("key_concepts", [])`. -/
def add_source_node (next_id : Int) (title : Option String) (content : String)
    (source_link source_type : String) (resp : Option String) (created_at : String) :
    StoredNode :=
  let summary := summarize_with_gemini content resp
  { id := next_id
    title := title.getD ("Source #" ++ toString next_id)
    content := if content.length > 500 then content.take 500 else content
    full_content := content
    source := source_link
    source_type := source_type
    summary := summary
    created_at := created_at
    tags := jsonGet summary "key_concepts" (Json.arr []) }

/-! ## Lemmas about the edge builder -/

theorem length_filterMap_isSome {α β : Type} (f : α → Option β) (l : List α) :
    (l.filterMap f).length = l.countP (fun a => (f a).isSome) := by
  induction l with
  | nil => rfl
  | cons a l ih =>
    cases h : f a <;> simp [List.filterMap_cons, h, List.countP_cons, ih]

theorem mem_pairsUpTo (n : Nat) (p : Nat × Nat) :
    p ∈ pairsUpTo n ↔ p.1 < p.2 ∧ p.2 < n := by
  obtain ⟨i, j⟩ := p
  simp only [pairsUpTo, List.mem_flatMap, List.mem_map, List.mem_range, List.mem_range']
  constructor
  · rintro ⟨a, ha, j', ⟨k, hk, rfl⟩, heq⟩
    obtain ⟨rfl, rfl⟩ := Prod.mk.injEq .. ▸ heq
    constructor <;> omega
  · rintro ⟨hij, hj⟩
    exact ⟨i, by omega, j, ⟨j - (i + 1), by omega, by omega⟩, rfl⟩

theorem jaccard_comm (a b : ContentItem) : jaccard a b = jaccard b a := by
  unfold jaccard
  rw [Finset.inter_comm, Finset.union_comm]

theorem similarity_eq_jaccard {a b : ContentItem} (ha : combined a ≠ ∅) :
    similarity a b = jaccard a b := by
  have hpos : 0 < (combined a ∪ combined b).card := by
    rw [Finset.card_pos]
    exact (Finset.nonempty_iff_ne_empty.mpr ha).mono Finset.subset_union_left
  rw [similarity, if_pos hpos]

theorem pairEdge_some_iff (a b : ContentItem) (e : RelatednessEdge) :
    pairEdge a b = some e ↔
      combined a ≠ ∅ ∧ combined b ≠ ∅ ∧ (1 : ℚ) / 10 ≤ jaccard a b ∧
        e = ⟨a.id, b.id, jaccard a b⟩ := by
  unfold pairEdge
  by_cases h : combined a ≠ ∅ ∧ combined b ≠ ∅
  · rw [if_pos h, similarity_eq_jaccard h.1]
    by_cases h2 : (1 : ℚ) / 10 ≤ jaccard a b
    · simp only [if_pos h2, Option.some.injEq]
      constructor
      · intro he
        exact ⟨h.1, h.2, h2, he.symm⟩
      · intro he
        exact he.2.2.2.symm
    · simp only [if_neg h2]
      constructor
      · intro he
        exact absurd he (by simp)
      · intro he
        exact absurd he.2.2.1 h2
  · rw [if_neg h]
    constructor
    · intro he
      exact absurd he (by simp)
    · intro he
      exact absurd ⟨he.1, he.2.1⟩ h

theorem pairEdge_isSome_iff (a b : ContentItem) :
    (pairEdge a b).isSome = true ↔
      combined a ≠ ∅ ∧ combined b ≠ ∅ ∧ (1 : ℚ) / 10 ≤ jaccard a b := by
  rw [Option.isSome_iff_exists]
  constructor
  · rintro ⟨e, he⟩
    have h := (pairEdge_some_iff a b e).mp he
    exact ⟨h.1, h.2.1, h.2.2.1⟩
  · rintro ⟨h1, h2, h3⟩
    exact ⟨⟨a.id, b.id, jaccard a b⟩, (pairEdge_some_iff a b _).mpr ⟨h1, h2, h3, rfl⟩⟩

theorem buildEdges_mem (nodes : List ContentItem) (e : RelatednessEdge) :
    e ∈ buildEdges nodes ↔ ∃ i j, i < j ∧ j < nodes.length ∧
      pairEdge (nodes.getD i defaultItem) (nodes.getD j defaultItem) = some e := by
  unfold buildEdges
  rw [List.mem_filterMap]
  constructor
  · rintro ⟨⟨i, j⟩, hp, he⟩
    obtain ⟨h1, h2⟩ := (mem_pairsUpTo _ _).mp hp
    exact ⟨i, j, h1, h2, he⟩
  · rintro ⟨i, j, h1, h2, he⟩
    exact ⟨(i, j), (mem_pairsUpTo _ _).mpr ⟨h1, h2⟩, he⟩

theorem buildEdges_two (a b : ContentItem) :
    buildEdges [a, b] = (pairEdge a b).toList := by
  have h2 : pairsUpTo ([a, b] : List ContentItem).length = [(0, 1)] := rfl
  unfold buildEdges
  rw [h2, List.filterMap_cons, List.filterMap_nil]
  cases h : pairEdge (([a, b] : List ContentItem).getD 0 defaultItem)
      (([a, b] : List ContentItem).getD 1 defaultItem) <;>
    simp_all [List.getD, Option.toList]

theorem pairEdge_congr {a a' b b' : ContentItem}
    (ha : eqExceptRelated a a') (hb : eqExceptRelated b b') :
    pairEdge a b = pairEdge a' b' := by
  have hca : combined a = combined a' := by
    unfold combined
    rw [ha.2.1, ha.2.2.1]
  have hcb : combined b = combined b' := by
    unfold combined
    rw [hb.2.1, hb.2.2.1]
  unfold pairEdge similarity jaccard
  rw [hca, hcb, ha.1, hb.1]

theorem forall₂_getD {R : ContentItem → ContentItem → Prop} {l1 l2 : List ContentItem}
    (h : List.Forall₂ R l1 l2) (k : Nat) (hk : k < l2.length) :
    R (l1.getD k defaultItem) (l2.getD k defaultItem) := by
  obtain ⟨hlen, hget⟩ := List.forall₂_iff_get.mp h
  have hk1 : k < l1.length := by omega
  rw [List.getD_eq_getElem l1 defaultItem hk1, List.getD_eq_getElem l2 defaultItem hk]
  have := hget k hk1 hk
  simpa [List.get_eq_getElem] using this

/-! ## Claims about the relatedness graph builder -/

/-- Claim C1: for every node population and pair of positions `i < j`, the
builder emits an edge for the pair iff both combined concept/method sets
are nonempty and the Jaccard similarity is at least `1/10`; an emitted
edge carries exactly the two ids and the exact Jaccard weight and lands in
the edge list, and the edge list has exactly one entry per qualifying
index pair. -/
theorem claim_C1 (nodes : List ContentItem) (i j : Nat)
    (hij : i < j) (hj : j < nodes.length) :
    ((pairEdge (nodes.getD i defaultItem) (nodes.getD j defaultItem)).isSome = true ↔
      combined (nodes.getD i defaultItem) ≠ ∅ ∧ combined (nodes.getD j defaultItem) ≠ ∅ ∧
        (1 : ℚ) / 10 ≤ jaccard (nodes.getD i defaultItem) (nodes.getD j defaultItem))
    ∧ (∀ e, pairEdge (nodes.getD i defaultItem) (nodes.getD j defaultItem) = some e →
        e = ⟨(nodes.getD i defaultItem).id, (nodes.getD j defaultItem).id,
          jaccard (nodes.getD i defaultItem) (nodes.getD j defaultItem)⟩ ∧
          e ∈ buildEdges nodes)
    ∧ (buildEdges nodes).length =
        (pairsUpTo nodes.length).countP
          (fun p => (pairEdge (nodes.getD p.1 defaultItem) (nodes.getD p.2 defaultItem)).isSome) := by
  refine ⟨pairEdge_isSome_iff _ _, fun e he => ?_, length_filterMap_isSome _ _⟩
  refine ⟨((pairEdge_some_iff _ _ _).mp he).2.2.2, ?_⟩
  exact (buildEdges_mem nodes e).mpr ⟨i, j, hij, hj, he⟩

/-- Witness for C1 at the boundary example of the claim: two nodes whose
combined sets have intersection 1 and union 10, so the edge exists with
weight exactly `1/10`. -/
theorem claim_C1_witness :
    (0 : Nat) < 1 ∧ (1 : Nat) <
      ([⟨1, ⟨["a", "b", "c", "d", "e"], [], [], ""⟩⟩,
        ⟨2, ⟨["e", "f", "g", "h", "i", "j"], [], [], ""⟩⟩] : List ContentItem).length ∧
    (((pairEdge
        (([⟨1, ⟨["a", "b", "c", "d", "e"], [], [], ""⟩⟩,
           ⟨2, ⟨["e", "f", "g", "h", "i", "j"], [], [], ""⟩⟩] : List ContentItem).getD 0 defaultItem)
        (([⟨1, ⟨["a", "b", "c", "d", "e"], [], [], ""⟩⟩,
           ⟨2, ⟨["e", "f", "g", "h", "i", "j"], [], [], ""⟩⟩] : List ContentItem).getD 1 defaultItem)).isSome = true ↔
      combined (([⟨1, ⟨["a", "b", "c", "d", "e"], [], [], ""⟩⟩,
           ⟨2, ⟨["e", "f", "g", "h", "i", "j"], [], [], ""⟩⟩] : List ContentItem).getD 0 defaultItem) ≠ ∅ ∧
        combined (([⟨1, ⟨["a", "b", "c", "d", "e"], [], [], ""⟩⟩,
           ⟨2, ⟨["e", "f", "g", "h", "i", "j"], [], [], ""⟩⟩] : List ContentItem).getD 1 defaultItem) ≠ ∅ ∧
        (1 : ℚ) / 10 ≤ jaccard
          (([⟨1, ⟨["a", "b", "c", "d", "e"], [], [], ""⟩⟩,
             ⟨2, ⟨["e", "f", "g", "h", "i", "j"], [], [], ""⟩⟩] : List ContentItem).getD 0 defaultItem)
          (([⟨1, ⟨["a", "b", "c", "d", "e"], [], [], ""⟩⟩,
             ⟨2, ⟨["e", "f", "g", "h", "i", "j"], [], [], ""⟩⟩] : List ContentItem).getD 1 defaultItem))
    ∧ (∀ e, pairEdge
        (([⟨1, ⟨["a", "b", "c", "d", "e"], [], [], ""⟩⟩,
           ⟨2, ⟨["e", "f", "g", "h", "i", "j"], [], [], ""⟩⟩] : List ContentItem).getD 0 defaultItem)
        (([⟨1, ⟨["a", "b", "c", "d", "e"], [], [], ""⟩⟩,
           ⟨2, ⟨["e", "f", "g", "h", "i", "j"], [], [], ""⟩⟩] : List ContentItem).getD 1 defaultItem) = some e →
        e = ⟨(([⟨1, ⟨["a", "b", "c", "d", "e"], [], [], ""⟩⟩,
           ⟨2, ⟨["e", "f", "g", "h", "i", "j"], [], [], ""⟩⟩] : List ContentItem).getD 0 defaultItem).id,
          (([⟨1, ⟨["a", "b", "c", "d", "e"], [], [], ""⟩⟩,
           ⟨2, ⟨["e", "f", "g", "h", "i", "j"], [], [], ""⟩⟩] : List ContentItem).getD 1 defaultItem).id,
          jaccard
            (([⟨1, ⟨["a", "b", "c", "d", "e"], [], [], ""⟩⟩,
               ⟨2, ⟨["e", "f", "g", "h", "i", "j"], [], [], ""⟩⟩] : List ContentItem).getD 0 defaultItem)
            (([⟨1, ⟨["a", "b", "c", "d", "e"], [], [], ""⟩⟩,
               ⟨2, ⟨["e", "f", "g", "h", "i", "j"], [], [], ""⟩⟩] : List ContentItem).getD 1 defaultItem)⟩ ∧
          e ∈ buildEdges [⟨1, ⟨["a", "b", "c", "d", "e"], [], [], ""⟩⟩,
            ⟨2, ⟨["e", "f", "g", "h", "i", "j"], [], [], ""⟩⟩])
    ∧ (buildEdges [⟨1, ⟨["a", "b", "c", "d", "e"], [], [], ""⟩⟩,
          ⟨2, ⟨["e", "f", "g", "h", "i", "j"], [], [], ""⟩⟩]).length =
        (pairsUpTo ([⟨1, ⟨["a", "b", "c", "d", "e"], [], [], ""⟩⟩,
            ⟨2, ⟨["e", "f", "g", "h", "i", "j"], [], [], ""⟩⟩] : List ContentItem).length).countP
          (fun p => (pairEdge
            (([⟨1, ⟨["a", "b", "c", "d", "e"], [], [], ""⟩⟩,
               ⟨2, ⟨["e", "f", "g", "h", "i", "j"], [], [], ""⟩⟩] : List ContentItem).getD p.1 defaultItem)
            (([⟨1, ⟨["a", "b", "c", "d", "e"], [], [], ""⟩⟩,
               ⟨2, ⟨["e", "f", "g", "h", "i", "j"], [], [], ""⟩⟩] : List ContentItem).getD p.2 defaultItem)).isSome)) :=
  ⟨by decide, by decide, claim_C1 _ 0 1 (by decide) (by decide)⟩

/-- Claim C3 fails as stated: with the shared concept `"x"`, running the
builder on the id-descending order `[B, A]` yields the edge
`(source 2, target 1)`, which is not in canonical `source < target` form,
and differs from the run on `[A, B]`. -/
theorem claim_C3_counterexample :
    buildEdges [⟨1, ⟨["x"], [], [], ""⟩⟩, ⟨2, ⟨["x"], [], [], ""⟩⟩]
      = [{ source := 1, target := 2, weight := 1 }]
    ∧ buildEdges [⟨2, ⟨["x"], [], [], ""⟩⟩, ⟨1, ⟨["x"], [], [], ""⟩⟩]
      = [{ source := 2, target := 1, weight := 1 }]
    ∧ ¬((2 : Int) < 1) := by
  have hj12 : jaccard (⟨1, ⟨["x"], [], [], ""⟩⟩ : ContentItem)
      (⟨2, ⟨["x"], [], [], ""⟩⟩ : ContentItem) = 1 := by
    have hI : (combined (⟨1, ⟨["x"], [], [], ""⟩⟩ : ContentItem) ∩
        combined (⟨2, ⟨["x"], [], [], ""⟩⟩ : ContentItem)).card = 1 := by decide
    have hU : (combined (⟨1, ⟨["x"], [], [], ""⟩⟩ : ContentItem) ∪
        combined (⟨2, ⟨["x"], [], [], ""⟩⟩ : ContentItem)).card = 1 := by decide
    rw [jaccard, hI, hU]
    norm_num
  have hj21 : jaccard (⟨2, ⟨["x"], [], [], ""⟩⟩ : ContentItem)
      (⟨1, ⟨["x"], [], [], ""⟩⟩ : ContentItem) = 1 := by
    rw [jaccard_comm]
    exact hj12
  have h12 : pairEdge (⟨1, ⟨["x"], [], [], ""⟩⟩ : ContentItem)
      (⟨2, ⟨["x"], [], [], ""⟩⟩ : ContentItem) = some { source := 1, target := 2, weight := 1 } := by
    refine (pairEdge_some_iff _ _ _).mpr ⟨by decide, by decide, ?_, ?_⟩
    · rw [hj12]
      norm_num
    · rw [hj12]
  have h21 : pairEdge (⟨2, ⟨["x"], [], [], ""⟩⟩ : ContentItem)
      (⟨1, ⟨["x"], [], [], ""⟩⟩ : ContentItem) = some { source := 2, target := 1, weight := 1 } := by
    refine (pairEdge_some_iff _ _ _).mpr ⟨by decide, by decide, ?_, ?_⟩
    · rw [hj21]
      norm_num
    · rw [hj21]
  refine ⟨?_, ?_, by omega⟩
  · rw [buildEdges_two, h12]
    rfl
  · rw [buildEdges_two, h21]
    rfl

/-- Claim C3, amended: the two input orders of a pair produce the same
edge up to swapping the endpoint ids (same unordered pair, identical
weight); the emitted `source`/`target` follow the positional order of the
input, so `source < target` holds whenever the population is sorted by
strictly increasing id, which is what the append-only store with
monotonically assigned ids produces. -/
theorem claim_C3_amended (A B : ContentItem) (nodes : List ContentItem)
    (hsort : List.Pairwise (fun a b => a.id < b.id) nodes) :
    (buildEdges [A, B]).map canonEdge = (buildEdges [B, A]).map canonEdge
    ∧ ∀ e ∈ buildEdges nodes, e.source < e.target := by
  constructor
  · rw [buildEdges_two, buildEdges_two]
    rcases h1 : pairEdge A B with _ | e1 <;> rcases h2 : pairEdge B A with _ | e2
    · rfl
    · exfalso
      have hc := (pairEdge_some_iff B A e2).mp h2
      have : (pairEdge A B).isSome = true :=
        (pairEdge_isSome_iff A B).mpr ⟨hc.2.1, hc.1, jaccard_comm A B ▸ hc.2.2.1⟩
      rw [h1] at this
      exact absurd this (by simp)
    · exfalso
      have hc := (pairEdge_some_iff A B e1).mp h1
      have : (pairEdge B A).isSome = true :=
        (pairEdge_isSome_iff B A).mpr ⟨hc.2.1, hc.1, jaccard_comm B A ▸ hc.2.2.1⟩
      rw [h2] at this
      exact absurd this (by simp)
    · have hc1 := ((pairEdge_some_iff A B e1).mp h1).2.2.2
      have hc2 := ((pairEdge_some_iff B A e2).mp h2).2.2.2
      subst hc1
      subst hc2
      simp [canonEdge, Option.toList, min_comm, max_comm, jaccard_comm A B]
  · intro e he
    obtain ⟨i, j, hij, hjl, hpe⟩ := (buildEdges_mem nodes e).mp he
    have hil : i < nodes.length := lt_trans hij hjl
    have hsh := ((pairEdge_some_iff _ _ _).mp hpe).2.2.2
    have hlt := List.pairwise_iff_get.mp hsort ⟨i, hil⟩ ⟨j, hjl⟩ hij
    rw [hsh]
    show (nodes.getD i defaultItem).id < (nodes.getD j defaultItem).id
    rw [List.getD_eq_getElem nodes defaultItem hil, List.getD_eq_getElem nodes defaultItem hjl]
    simpa [List.get_eq_getElem] using hlt

/-- Witness for the amended C3 on a concrete pair and a concrete
id-sorted population. -/
theorem claim_C3_amended_witness :
    ((buildEdges [(⟨1, ⟨["x"], [], [], ""⟩⟩ : ContentItem), ⟨2, ⟨["x"], ["y"], [], ""⟩⟩]).map canonEdge
      = (buildEdges [(⟨2, ⟨["x"], ["y"], [], ""⟩⟩ : ContentItem), ⟨1, ⟨["x"], [], [], ""⟩⟩]).map canonEdge)
    ∧ ∀ e ∈ buildEdges [(⟨1, ⟨["x"], [], [], ""⟩⟩ : ContentItem), ⟨2, ⟨["x"], ["y"], [], ""⟩⟩],
        e.source < e.target :=
  claim_C3_amended _ _ _ (by norm_num [List.pairwise_cons])

/-- Claim C7: the edge set returned by a graph read is computed over the
entire stored population and does not depend on the pagination parameters
in any way. -/
theorem claim_C7 (db : List ContentItem) (limit1 offset1 limit2 offset2 : Int) :
    (get_nodes db limit1 offset1).edges = (get_nodes db limit2 offset2).edges := rfl

/-- Claim C8: two populations that agree on ids, `key_concepts`,
`methods_used` and `insights` pointwise (so differ at most in
`related_topics`) produce identical edge lists, weights included. -/
theorem claim_C8 (ns1 ns2 : List ContentItem)
    (h : List.Forall₂ eqExceptRelated ns1 ns2) :
    buildEdges ns1 = buildEdges ns2 := by
  have hlen := h.length_eq
  unfold buildEdges
  rw [hlen]
  apply List.filterMap_congr
  intro p hp
  obtain ⟨h1, h2⟩ := (mem_pairsUpTo _ p).mp hp
  exact pairEdge_congr (forall₂_getD h p.1 (by omega)) (forall₂_getD h p.2 h2)

/-- Witness for C8: two singleton populations differing only in
`related_topics`. -/
theorem claim_C8_witness :
    buildEdges [⟨1, ⟨["x"], ["m"], ["p"], "i"⟩⟩] = buildEdges [⟨1, ⟨["x"], ["m"], ["q"], "i"⟩⟩] :=
  claim_C8 _ _ (List.Forall₂.cons ⟨rfl, rfl, rfl, rfl⟩ List.Forall₂.nil)

/-! ## Lemmas about the summary normalizer -/

theorem skipWs_cons_false {c : Char} (h : isWsChar c = false) (cs : List Char) :
    skipWs (c :: cs) = c :: cs := by
  simp [skipWs, h]

theorem summarize_not_short {text : String} (h : 20 ≤ (pyStrip text.data).length) :
    ¬(text.data = [] ∨ (pyStrip text.data).length < 20) := by
  rintro (h1 | h2)
  · rw [h1] at h
    simp [pyStrip] at h
  · omega

theorem pyFindAux_drop {c : Char} :
    ∀ {cs : List Char} {i j : Nat}, pyFindAux cs c i = some j →
      i ≤ j ∧ ∃ tl, cs.drop (j - i) = c :: tl := by
  intro cs
  induction cs with
  | nil => intro i j h; exact absurd h (by simp [pyFindAux])
  | cons x xs ih =>
    intro i j h
    rw [pyFindAux] at h
    by_cases hx : x = c
    · rw [if_pos hx] at h
      obtain rfl := Option.some.inj h
      subst hx
      exact ⟨le_refl i, xs, by simp⟩
    · rw [if_neg hx] at h
      obtain ⟨hle, tl, htl⟩ := ih h
      refine ⟨by omega, tl, ?_⟩
      have hj : j - i = (j - (i + 1)) + 1 := by omega
      rw [hj, List.drop_succ_cons]
      exact htl

theorem extractJsonSpan_head {cs span : List Char}
    (h : extractJsonSpan cs = some span) : ∃ tl, span = '\x7b' :: tl := by
  unfold extractJsonSpan at h
  rcases hf : pyFind cs '\x7b' with _ | js <;> rw [hf] at h
  · exact absurd h (by simp)
  · rcases hr : pyRfind cs '\x7d' with _ | je <;> rw [hr] at h
    · exact absurd h (by simp)
    · by_cases hlt : js < je + 1
      · simp only [hlt, if_true] at h
        obtain rfl := Option.some.inj h
        obtain ⟨-, tl, htl⟩ := pyFindAux_drop hf
        rw [Nat.sub_zero] at htl
        have hk : je + 1 - js = (je - js) + 1 := by omega
        rw [htl, hk, List.take_succ_cons]
        exact ⟨_, rfl⟩
      · simp only [hlt, if_false] at h
        exact absurd h (by simp)

theorem parseValue_brace : ∀ (f : Nat) (tl rest : List Char) (v : Json),
    parseValue (f + 1) ('\x7b' :: tl) = some (v, rest) → ∃ kvs, v = Json.obj kvs := by
  intro f tl rest v h
  rw [parseValue, skipWs_cons_false (by decide)] at h
  simp only [show (('\x7b' : Char) = '"') = False from by simp,
    show (('\x7b' : Char) = '\x7b') = True from by simp, if_true, if_false] at h
  rcases hsw : skipWs tl with _ | ⟨c2, rest2⟩ <;> rw [hsw] at h
  · exact absurd h (by simp)
  · by_cases hc2 : c2 = '\x7d'
    · simp only [hc2, if_true] at h
      have hv := Prod.ext_iff.mp (Option.some.inj h)
      exact ⟨[], hv.1.symm⟩
    · simp only [hc2, if_false] at h
      rcases hm : parseMembers f tl with _ | p <;> rw [hm] at h
      · exact absurd h (by simp)
      · simp only [Option.map_some'] at h
        have hv := Prod.ext_iff.mp (Option.some.inj h)
        exact ⟨p.1, hv.1.symm⟩

theorem loads_brace_obj {tl : List Char} {v : Json}
    (h : loads ('\x7b' :: tl) = some v) : ∃ kvs, v = Json.obj kvs := by
  unfold loads at h
  rcases hp : parseValue (('\x7b' :: tl).length + 1) ('\x7b' :: tl) with _ | ⟨w, rest⟩ <;>
    rw [hp] at h
  · exact absurd h (by simp)
  · have hfe : ('\x7b' :: tl).length + 1 = (tl.length + 1) + 1 := by simp
    rw [hfe] at hp
    obtain ⟨kvs, rfl⟩ := parseValue_brace _ _ _ _ hp
    by_cases hr : skipWs rest = []
    · simp only [hr, eq_self_iff_true, if_true] at h
      obtain rfl := Option.some.inj h
      exact ⟨kvs, rfl⟩
    · simp only [hr, if_false] at h
      exact absurd h (by simp)

/-- Whatever its inputs, the normalizer returns a JSON object: one of the
three placeholder objects or the parsed span, which always begins with an
opening brace and hence parses to an object. -/
theorem summarize_obj (text : String) (resp : Option String) :
    ∃ kvs, summarize_with_gemini text resp = Json.obj kvs := by
  unfold summarize_with_gemini
  by_cases hshort : text.data = [] ∨ (pyStrip text.data).length < 20
  · rw [if_pos hshort]
    exact ⟨_, rfl⟩
  · rw [if_neg hshort]
    cases resp with
    | none => exact ⟨_, rfl⟩
    | some r =>
      rcases hs : extractJsonSpan r.data with _ | span
      · simp only [hs]
        exact ⟨_, rfl⟩
      · simp only [hs]
        rcases hl : loads span with _ | parsed
        · simp only [hl]
          exact ⟨_, rfl⟩
        · simp only [hl]
          obtain ⟨tl, rfl⟩ := extractJsonSpan_head hs
          obtain ⟨kvs, rfl⟩ := loads_brace_obj hl
          exact ⟨kvs, rfl⟩

/-! ## Claims about the summary normalizer (except the round-trip) -/

/-- Claim C4: any source text whose stripped length is below 20 yields the
fixed "too short" placeholder, whatever the analysis response was, and the
placeholder carries exactly the four documented field values. -/
theorem claim_C4 (text : String) (resp : Option String)
    (h : (pyStrip text.data).length < 20) :
    summarize_with_gemini text resp = tooShortSummary ∧
      tooShortSummary = Json.obj
        [("key_concepts", Json.arr [Json.str "content analysis"]),
         ("methods_used", Json.arr [Json.str "text processing"]),
         ("related_topics", Json.arr [Json.str "knowledge extraction"]),
         ("insights", Json.str "Content too short to analyze")] := by
  refine ⟨?_, rfl⟩
  unfold summarize_with_gemini
  rw [if_pos (Or.inr h)]

/-- Witness for C4: a five-character text with a fully well-formed analysis
response still yields the "too short" placeholder. -/
theorem claim_C4_witness :
    (pyStrip ("short" : String).data).length < 20 ∧
      summarize_with_gemini "short"
        (some "\x7b\"key_concepts\": [\"k\"], \"methods_used\": [], \"related_topics\": [], \"insights\": \"i\"\x7d")
        = tooShortSummary :=
  ⟨by decide, (claim_C4 "short" _ (by decide)).1⟩

set_option maxRecDepth 8192 in
/-- Claim C5 fails as stated at the empty raw response: the code's
truthiness test replaces the empty 150-character slice with the string
"Content captured successfully", which differs from the first 150
characters of the empty response (the empty string). -/
theorem claim_C5_counterexample :
    summarize_with_gemini "this text is long enough to analyze" (some "") = fallbackSummary ""
    ∧ jsonLookup (fallbackSummary "") "insights" = some (Json.str "Content captured successfully")
    ∧ ("" : String).take 150 = ""
    ∧ ("Content captured successfully" : String) ≠ "" :=
  ⟨rfl, rfl, rfl, by decide⟩

/-- Claim C5, amended: when no brace span exists or the span fails to
parse, the result is the fallback placeholder, whose `insights` is the
first at-most-150 characters of the raw response when the response is
nonempty, and the fixed string "Content captured successfully" when the
response is empty. -/
theorem claim_C5_amended (text r : String) (h : 20 ≤ (pyStrip text.data).length)
    (h2 : extractJsonSpan r.data = none ∨
      ∃ span, extractJsonSpan r.data = some span ∧ loads span = none) :
    summarize_with_gemini text (some r) = fallbackSummary r ∧
      jsonLookup (fallbackSummary r) "insights" =
        some (Json.str (if r.data = [] then "Content captured successfully" else r.take 150)) := by
  refine ⟨?_, rfl⟩
  unfold summarize_with_gemini
  rw [if_neg (summarize_not_short h)]
  rcases h2 with h2 | ⟨span, hs, hl⟩
  · simp only [h2]
  · simp only [hs, hl]

/-- Witness for the amended C5 at a brace-free raw response. -/
theorem claim_C5_amended_witness :
    20 ≤ (pyStrip ("this text is long enough to analyze" : String).data).length ∧
      (summarize_with_gemini "this text is long enough to analyze" (some "no json here")
          = fallbackSummary "no json here" ∧
        jsonLookup (fallbackSummary "no json here") "insights" =
          some (Json.str (if ("no json here" : String).data = []
            then "Content captured successfully" else ("no json here" : String).take 150))) :=
  ⟨by decide, claim_C5_amended _ _ (by decide) (Or.inl rfl)⟩

/-- Claim C2 fails as stated: a span that parses but lacks three of the
four required fields is returned as-is (a partial record), not replaced by
the fallback placeholder. -/
theorem claim_C2_counterexample :
    summarize_with_gemini "this text is long enough to analyze"
        (some "\x7b\"key_concepts\": [\"a\"]\x7d")
      = Json.obj [("key_concepts", Json.arr [Json.str "a"])]
    ∧ hasSummaryShape (Json.obj [("key_concepts", Json.arr [Json.str "a"])]) = false
    ∧ summarize_with_gemini "this text is long enough to analyze"
        (some "\x7b\"key_concepts\": [\"a\"]\x7d")
      ≠ fallbackSummary "\x7b\"key_concepts\": [\"a\"]\x7d" := by
  refine ⟨rfl, rfl, fun heq => ?_⟩
  have hiso := congrArg (fun v => (jsonLookup v "methods_used").isSome) heq
  exact absurd hiso (by decide)

/-- Claim C2, amended: whenever the extracted span parses, the normalizer
returns the parsed value unchanged, with no check for the four required
fields; in general every output is exactly one of the parsed span value
(possibly a partial record) or one of the three fixed placeholders. -/
theorem claim_C2_amended (text r : String) (span : List Char) (v : Json)
    (h : 20 ≤ (pyStrip text.data).length)
    (h2 : extractJsonSpan r.data = some span) (h3 : loads span = some v) :
    summarize_with_gemini text (some r) = v ∧
      ∀ (t : String) (s : Option String),
        summarize_with_gemini t s = tooShortSummary ∨
        summarize_with_gemini t s = errorSummary ∨
        (∃ r2, s = some r2 ∧ summarize_with_gemini t s = fallbackSummary r2) ∨
        (∃ r2 sp w, s = some r2 ∧ extractJsonSpan r2.data = some sp ∧ loads sp = some w ∧
          summarize_with_gemini t s = w) := by
  constructor
  · unfold summarize_with_gemini
    rw [if_neg (summarize_not_short h)]
    simp only [h2, h3]
  · intro t s
    by_cases hshort : t.data = [] ∨ (pyStrip t.data).length < 20
    · left
      unfold summarize_with_gemini
      rw [if_pos hshort]
    · cases s with
      | none =>
        right
        left
        unfold summarize_with_gemini
        rw [if_neg hshort]
      | some r2 =>
        rcases hs : extractJsonSpan r2.data with _ | sp
        · right
          right
          left
          refine ⟨r2, rfl, ?_⟩
          unfold summarize_with_gemini
          rw [if_neg hshort]
          simp only [hs]
        · rcases hl : loads sp with _ | w
          · right
            right
            left
            refine ⟨r2, rfl, ?_⟩
            unfold summarize_with_gemini
            rw [if_neg hshort]
            simp only [hs, hl]
          · right
            right
            right
            refine ⟨r2, sp, w, rfl, hs, hl, ?_⟩
            unfold summarize_with_gemini
            rw [if_neg hshort]
            simp only [hs, hl]

/-- Witness for the amended C2: a concrete partial-record response is
returned verbatim. -/
theorem claim_C2_amended_witness :
    20 ≤ (pyStrip ("this text is long enough to analyze" : String).data).length ∧
      extractJsonSpan ("\x7b\"key_concepts\": [\"a\"]\x7d" : String).data
        = some ("\x7b\"key_concepts\": [\"a\"]\x7d" : String).data ∧
      loads ("\x7b\"key_concepts\": [\"a\"]\x7d" : String).data
        = some (Json.obj [("key_concepts", Json.arr [Json.str "a"])]) ∧
      summarize_with_gemini "this text is long enough to analyze"
          (some "\x7b\"key_concepts\": [\"a\"]\x7d")
        = Json.obj [("key_concepts", Json.arr [Json.str "a"])] :=
  ⟨by decide, rfl, rfl,
    (claim_C2_amended "this text is long enough to analyze"
      "\x7b\"key_concepts\": [\"a\"]\x7d" ("\x7b\"key_concepts\": [\"a\"]\x7d" : String).data
      (Json.obj [("key_concepts", Json.arr [Json.str "a"])]) (by decide) rfl rfl).1⟩

/-- Claim C6 fails in its final clause: the output is not always a
well-typed `StructuredSummary`, since a parsed span with none of the four
fields escapes as-is. -/
theorem claim_C6_counterexample :
    summarize_with_gemini "this text is long enough to analyze" (some "\x7b\"foo\": 1\x7d")
      = Json.obj [("foo", Json.num 1)]
    ∧ hasSummaryShape (Json.obj [("foo", Json.num 1)]) = false :=
  ⟨rfl, rfl⟩

/-- Claim C6, amended: when the external call raises, the normalizer
returns the third placeholder with the documented `insights` string; the
normalizer is total and always returns some JSON object, but that object
need not carry the four `StructuredSummary` fields. -/
theorem claim_C6_amended (text : String) (h : 20 ≤ (pyStrip text.data).length) :
    summarize_with_gemini text none = errorSummary
    ∧ jsonLookup errorSummary "insights" =
        some (Json.str "Content captured successfully. AI summarization failed - using placeholder.")
    ∧ ∀ (t : String) (s : Option String), ∃ kvs, summarize_with_gemini t s = Json.obj kvs := by
  refine ⟨?_, rfl, fun t s => summarize_obj t s⟩
  unfold summarize_with_gemini
  rw [if_neg (summarize_not_short h)]

/-- Witness for the amended C6. -/
theorem claim_C6_amended_witness :
    20 ≤ (pyStrip ("this text is long enough to analyze" : String).data).length ∧
      summarize_with_gemini "this text is long enough to analyze" none = errorSummary :=
  ⟨by decide, (claim_C6_amended _ (by decide)).1⟩

/-! ## Claim about node creation -/

/-- Claim C9: the created node's `tags` is exactly
`summary.get("key_concepts", [])` of its own summary, so whenever the
summary carries a `key_concepts` entry (as all three placeholders and any
well-formed parsed summary do), `tags` equals that entry. -/
theorem claim_C9 (next_id : Int) (title : Option String) (content : String)
    (source_link source_type : String) (resp : Option String) (created_at : String) :
    (add_source_node next_id title content source_link source_type resp created_at).tags =
      jsonGet (add_source_node next_id title content source_link source_type resp created_at).summary
        "key_concepts" (Json.arr [])
    ∧ ∀ v, jsonLookup
        (add_source_node next_id title content source_link source_type resp created_at).summary
        "key_concepts" = some v →
        (add_source_node next_id title content source_link source_type resp created_at).tags = v := by
  refine ⟨rfl, fun v hv => ?_⟩
  show jsonGet (summarize_with_gemini content resp) "key_concepts" (Json.arr []) = v
  have hv2 : jsonLookup (summarize_with_gemini content resp) "key_concepts" = some v := hv
  unfold jsonGet
  rw [hv2]
  rfl

/-- Witness for C9 at a too-short ingestion: the summary is the "too
short" placeholder and the node's tags equal its `key_concepts` entry. -/
theorem claim_C9_witness :
    (add_source_node 1 none "x" "direct_input" "manual" none "t").tags =
      jsonGet (add_source_node 1 none "x" "direct_input" "manual" none "t").summary
        "key_concepts" (Json.arr [])
    ∧ (add_source_node 1 none "x" "direct_input" "manual" none "t").tags
        = Json.arr [Json.str "content analysis"] :=
  ⟨(claim_C9 1 none "x" "direct_input" "manual" none "t").1,
   (claim_C9 1 none "x" "direct_input" "manual" none "t").2 _ rfl⟩

/-! ## Round-trip, part 1: decimal digits -/

theorem digitCh_isDigit {n : Nat} (h : n < 10) : isDigitCh (digitCh n) = true := by
  interval_cases n <;> decide

theorem digitCh_toNat {n : Nat} (h : n < 10) : (digitCh n).toNat = 48 + n := by
  interval_cases n <;> decide

theorem digitCh_ne_zero {n : Nat} (h : n < 10) (hn : n ≠ 0) : digitCh n ≠ '0' := by
  interval_cases n <;> simp_all <;> decide

theorem digit_not_ws {c : Char} (h : isDigitCh c = true) : isWsChar c = false := by
  simp only [isDigitCh, Bool.and_eq_true, decide_eq_true_eq] at h
  simp only [isWsChar, Bool.or_eq_false_iff, decide_eq_false_iff_not]
  omega

theorem digit_not_kw {c : Char} (h : isDigitCh c = true) :
    c ≠ '"' ∧ c ≠ '\x7b' ∧ c ≠ '[' ∧ c ≠ 'n' ∧ c ≠ 't' ∧ c ≠ 'f' ∧ c ≠ '-' ∧
      c ≠ ']' ∧ c ≠ '\x7d' ∧ c ≠ ',' := by
  refine ⟨?_, ?_, ?_, ?_, ?_, ?_, ?_, ?_, ?_, ?_⟩ <;>
    (intro heq; subst heq; revert h; decide)

theorem natDigitsAux_fuel : ∀ (fuel : Nat), ∀ (n : Nat) (acc : List Char), n < fuel →
    natDigitsAux fuel n acc = natDigitsAux (n + 1) n acc := by
  intro fuel
  induction fuel using Nat.strongRecOn with
  | _ fuel ih =>
    intro n acc hn
    match fuel with
    | 0 => omega
    | f + 1 =>
      rw [natDigitsAux]
      by_cases h10 : n < 10
      · rw [if_pos h10]
        conv_rhs => rw [natDigitsAux]
        rw [if_pos h10]
      · rw [if_neg h10]
        have hd : n / 10 < n := Nat.div_lt_self (by omega) (by omega)
        conv_rhs => rw [natDigitsAux]
        rw [if_neg h10]
        rw [ih f (by omega) (n / 10) _ (by omega), ih n (by omega) (n / 10) _ (by omega)]

theorem natDigitsAux_acc : ∀ (fuel : Nat), ∀ (n : Nat) (acc : List Char),
    natDigitsAux fuel n acc = natDigitsAux fuel n [] ++ acc := by
  intro fuel
  induction fuel using Nat.strongRecOn with
  | _ fuel ih =>
    intro n acc
    match fuel with
    | 0 => rfl
    | f + 1 =>
      rw [natDigitsAux]
      conv_rhs => rw [natDigitsAux]
      by_cases h10 : n < 10
      · rw [if_pos h10, if_pos h10]
        rfl
      · rw [if_neg h10, if_neg h10]
        rw [ih f (by omega) (n / 10) (digitCh (n % 10) :: acc),
          ih f (by omega) (n / 10) [digitCh (n % 10)]]
        simp

theorem natDigits_unfold (n : Nat) :
    natDigits n = if n < 10 then [digitCh n]
      else natDigits (n / 10) ++ [digitCh (n % 10)] := by
  rw [natDigits, natDigitsAux]
  by_cases h10 : n < 10
  · rw [if_pos h10, if_pos h10]
  · rw [if_neg h10, if_neg h10]
    have hd : n / 10 < n := Nat.div_lt_self (by omega) (by omega)
    rw [natDigitsAux_fuel n (n / 10) _ (by omega),
      natDigitsAux_acc (n / 10 + 1) (n / 10) [digitCh (n % 10)]]
    rfl

theorem natDigits_ne_nil (n : Nat) : natDigits n ≠ [] := by
  rw [natDigits_unfold]
  by_cases h10 : n < 10
  · simp [h10]
  · simp [h10]

theorem natDigits_digits (n : Nat) : ∀ c ∈ natDigits n, isDigitCh c = true := by
  induction n using Nat.strongRecOn with
  | _ n ih =>
    intro c hc
    rw [natDigits_unfold] at hc
    by_cases h10 : n < 10
    · rw [if_pos h10] at hc
      rw [List.mem_singleton] at hc
      subst hc
      exact digitCh_isDigit h10
    · rw [if_neg h10] at hc
      rw [List.mem_append] at hc
      rcases hc with hc | hc
      · exact ih (n / 10) (Nat.div_lt_self (by omega) (by omega)) c hc
      · rw [List.mem_singleton] at hc
        subst hc
        exact digitCh_isDigit (Nat.mod_lt _ (by omega))

theorem natDigits_head_ne_zero : ∀ (n : Nat), n ≠ 0 → ∀ (d : Char) (ds : List Char),
    natDigits n = d :: ds → d ≠ '0' := by
  intro n
  induction n using Nat.strongRecOn with
  | _ n ih =>
    intro hn d ds hds
    rw [natDigits_unfold] at hds
    by_cases h10 : n < 10
    · rw [if_pos h10] at hds
      obtain ⟨rfl, -⟩ := List.cons.injEq .. ▸ hds
      exact digitCh_ne_zero h10 hn
    · rw [if_neg h10] at hds
      rcases hh : natDigits (n / 10) with _ | ⟨d0, ds0⟩
      · exact absurd hh (natDigits_ne_nil _)
      · rw [hh] at hds
        simp only [List.cons_append] at hds
        have hd0 : d0 = d := (List.cons.injEq .. ▸ hds).1
        subst hd0
        exact ih (n / 10) (Nat.div_lt_self (by omega) (by omega)) (by omega) d0 ds0 hh

theorem digitsVal_append_one (xs : List Char) (c : Char) :
    digitsVal (xs ++ [c]) = 10 * digitsVal xs + (c.toNat - 48) := by
  unfold digitsVal
  rw [List.foldl_append]
  rfl

theorem digitsVal_natDigits : ∀ (n : Nat), digitsVal (natDigits n) = n := by
  intro n
  induction n using Nat.strongRecOn with
  | _ n ih =>
    rw [natDigits_unfold]
    by_cases h10 : n < 10
    · rw [if_pos h10]
      show 10 * 0 + ((digitCh n).toNat - 48) = n
      rw [digitCh_toNat h10]
      omega
    · rw [if_neg h10]
      rw [digitsVal_append_one, ih (n / 10) (Nat.div_lt_self (by omega) (by omega)),
        digitCh_toNat (Nat.mod_lt _ (by omega))]
      omega

/-! ## Round-trip, part 2: integer tokens -/

theorem takeDigits_stop {cs : List Char}
    (h : ∀ d, cs.head? = some d → isDigitCh d = false) :
    takeDigits cs = ([], cs) := by
  cases cs with
  | nil => rfl
  | cons c t =>
    rw [takeDigits, if_neg]
    rw [h c rfl]
    simp

theorem takeDigits_append {ds : List Char} (hds : ∀ c ∈ ds, isDigitCh c = true)
    {rest : List Char} (hrest : ∀ d, rest.head? = some d → isDigitCh d = false) :
    takeDigits (ds ++ rest) = (ds, rest) := by
  induction ds with
  | nil =>
    rw [List.nil_append]
    exact takeDigits_stop hrest
  | cons a as ih =>
    rw [List.cons_append, takeDigits, if_pos (hds a (List.mem_cons_self ..)),
      ih (fun x hx => hds x (List.mem_cons_of_mem _ hx))]

theorem parseNatTok_natDigits (n : Nat) (rest : List Char)
    (hrest : ∀ d, rest.head? = some d → isDigitCh d = false) :
    parseNatTok (natDigits n ++ rest) = some (n, rest) := by
  by_cases hn : n = 0
  · subst hn
    have h0 : natDigits 0 = ['0'] := by rw [natDigits_unfold]; rfl
    rw [h0]
    rfl
  · rcases hh : natDigits n with _ | ⟨d, ds⟩
    · exact absurd hh (natDigits_ne_nil _)
    · have hd : isDigitCh d = true := natDigits_digits n d (hh ▸ List.mem_cons_self ..)
      have hd0 : d ≠ '0' := natDigits_head_ne_zero n hn d ds hh
      have hdall : ∀ c ∈ ds, isDigitCh c = true :=
        fun c hc => natDigits_digits n c (hh ▸ List.mem_cons_of_mem _ hc)
      have hv : digitsVal (List.cons d ds) = n := by
        rw [← hh]
        exact digitsVal_natDigits n
      simp only [List.cons_append, parseNatTok, hd0, hd, if_false, if_true,
        takeDigits_append hdall hrest, hv]

theorem parseNumber_intChars (i : Int) (rest : List Char)
    (hrest : ∀ d, rest.head? = some d → isDigitCh d = false) :
    parseNumber (intChars i ++ rest) = some (i, rest) := by
  cases i with
  | ofNat n =>
    rcases hh : natDigits n with _ | ⟨d, ds⟩
    · exact absurd hh (natDigits_ne_nil _)
    · have hd : isDigitCh d = true := natDigits_digits n d (hh ▸ List.mem_cons_self ..)
      show parseNumber (natDigits n ++ rest) = some (Int.ofNat n, rest)
      rw [hh, List.cons_append, parseNumber, if_neg (digit_not_kw hd).2.2.2.2.2.2.1,
        ← List.cons_append, ← hh, parseNatTok_natDigits n rest hrest]
      rfl
  | negSucc m =>
    show parseNumber ('-' :: (natDigits (m + 1) ++ rest)) = some (Int.negSucc m, rest)
    rw [parseNumber, if_pos rfl, parseNatTok_natDigits (m + 1) rest hrest]
    simp only [Option.map_some']
    have : -((m + 1 : Nat) : Int) = Int.negSucc m := by
      rw [Int.negSucc_eq]
      push_cast
      ring
    rw [this]

/-! ## Round-trip, part 3: string escapes -/

theorem hexCh_spec {k : Nat} (h : k < 16) :
    isHexCh (hexCh k) = true ∧ hexVal (hexCh k) = k := by
  interval_cases k <;> exact ⟨by decide, by decide⟩

theorem parseStringBody_backslash (e : Char) (cs : List Char) :
    parseStringBody ('\\' :: e :: cs) = parseEscSeq (e :: cs) := by
  rw [parseStringBody, if_neg (by decide : ¬(('\\' : Char) = '"')),
    if_pos (rfl : ('\\' : Char) = '\\')]

theorem parseStringBody_esc (c : Char) (rest : List Char) :
    parseStringBody (escChar c ++ rest) = consStrRes c (parseStringBody rest) := by
  by_cases h1 : c = '"'
  · subst h1
    rw [show escChar '"' = ['\\', '"'] from by decide]
    simp only [List.cons_append, List.nil_append]
    rw [parseStringBody_backslash, parseEscSeq, if_pos (rfl : ('"' : Char) = '"')]
  by_cases h2 : c = '\\'
  · subst h2
    rw [show escChar '\\' = ['\\', '\\'] from by decide]
    simp only [List.cons_append, List.nil_append]
    rw [parseStringBody_backslash, parseEscSeq, if_neg (by decide : ¬(('\\' : Char) = '"')),
      if_pos (rfl : ('\\' : Char) = '\\')]
  by_cases h3 : c = '\n'
  · subst h3
    rw [show escChar '\n' = ['\\', 'n'] from by decide]
    simp only [List.cons_append, List.nil_append]
    rw [parseStringBody_backslash, parseEscSeq, if_neg (by decide : ¬(('n' : Char) = '"')),
      if_neg (by decide : ¬(('n' : Char) = '\\')), if_neg (by decide : ¬(('n' : Char) = '/')),
      if_neg (by decide : ¬(('n' : Char) = 'b')), if_neg (by decide : ¬(('n' : Char) = 'f')),
      if_pos (rfl : ('n' : Char) = 'n')]
  by_cases h4 : c = '\r'
  · subst h4
    rw [show escChar '\r' = ['\\', 'r'] from by decide]
    simp only [List.cons_append, List.nil_append]
    rw [parseStringBody_backslash, parseEscSeq, if_neg (by decide : ¬(('r' : Char) = '"')),
      if_neg (by decide : ¬(('r' : Char) = '\\')), if_neg (by decide : ¬(('r' : Char) = '/')),
      if_neg (by decide : ¬(('r' : Char) = 'b')), if_neg (by decide : ¬(('r' : Char) = 'f')),
      if_neg (by decide : ¬(('r' : Char) = 'n')), if_pos (rfl : ('r' : Char) = 'r')]
  by_cases h5 : c = '\t'
  · subst h5
    rw [show escChar '\t' = ['\\', 't'] from by decide]
    simp only [List.cons_append, List.nil_append]
    rw [parseStringBody_backslash, parseEscSeq, if_neg (by decide : ¬(('t' : Char) = '"')),
      if_neg (by decide : ¬(('t' : Char) = '\\')), if_neg (by decide : ¬(('t' : Char) = '/')),
      if_neg (by decide : ¬(('t' : Char) = 'b')), if_neg (by decide : ¬(('t' : Char) = 'f')),
      if_neg (by decide : ¬(('t' : Char) = 'n')), if_neg (by decide : ¬(('t' : Char) = 'r')),
      if_pos (rfl : ('t' : Char) = 't')]
  by_cases h6 : c = '\x08'
  · subst h6
    rw [show escChar '\x08' = ['\\', 'b'] from by decide]
    simp only [List.cons_append, List.nil_append]
    rw [parseStringBody_backslash, parseEscSeq, if_neg (by decide : ¬(('b' : Char) = '"')),
      if_neg (by decide : ¬(('b' : Char) = '\\')), if_neg (by decide : ¬(('b' : Char) = '/')),
      if_pos (rfl : ('b' : Char) = 'b')]
  by_cases h7 : c = '\x0c'
  · subst h7
    rw [show escChar '\x0c' = ['\\', 'f'] from by decide]
    simp only [List.cons_append, List.nil_append]
    rw [parseStringBody_backslash, parseEscSeq, if_neg (by decide : ¬(('f' : Char) = '"')),
      if_neg (by decide : ¬(('f' : Char) = '\\')), if_neg (by decide : ¬(('f' : Char) = '/')),
      if_neg (by decide : ¬(('f' : Char) = 'b')), if_pos (rfl : ('f' : Char) = 'f')]
  by_cases h8 : c.toNat < 32
  · have he : escChar c = ['\\', 'u', '0', '0', hexCh (c.toNat / 16), hexCh (c.toNat % 16)] := by
      unfold escChar
      rw [if_neg h1, if_neg h2, if_neg h3, if_neg h4, if_neg h5, if_neg h6, if_neg h7, if_pos h8]
    have hx1 := hexCh_spec (show c.toNat / 16 < 16 by omega)
    have hx2 := hexCh_spec (show c.toNat % 16 < 16 by omega)
    have hguard : (isHexCh '0' && isHexCh '0' && isHexCh (hexCh (c.toNat / 16)) &&
        isHexCh (hexCh (c.toNat % 16))) = true := by
      rw [hx1.1, hx2.1]
      decide
    have hsur : ¬(55296 ≤ c.toNat ∧ c.toNat ≤ 57343) := by omega
    rw [he]
    simp only [List.cons_append, List.nil_append]
    rw [parseStringBody_backslash, parseEscSeq, if_neg (by decide : ¬(('u' : Char) = '"')),
      if_neg (by decide : ¬(('u' : Char) = '\\')), if_neg (by decide : ¬(('u' : Char) = '/')),
      if_neg (by decide : ¬(('u' : Char) = 'b')), if_neg (by decide : ¬(('u' : Char) = 'f')),
      if_neg (by decide : ¬(('u' : Char) = 'n')), if_neg (by decide : ¬(('u' : Char) = 'r')),
      if_neg (by decide : ¬(('u' : Char) = 't')), if_pos (rfl : ('u' : Char) = 'u'), parseUEsc,
      if_pos hguard]
    simp only [hx1.2, hx2.2, show hexVal '0' = 0 from by decide]
    rw [show ((0 * 16 + 0) * 16 + c.toNat / 16) * 16 + c.toNat % 16 = c.toNat from by omega]
    rw [if_neg hsur, Char.ofNat_toNat]
  · have he : escChar c = [c] := by
      unfold escChar
      rw [if_neg h1, if_neg h2, if_neg h3, if_neg h4, if_neg h5, if_neg h6, if_neg h7, if_neg h8]
    rw [he, List.cons_append, List.nil_append, parseStringBody, if_neg h1, if_neg h2, if_neg h8]

theorem parseStringBody_escList : ∀ (cs rest : List Char),
    parseStringBody (escList cs ++ '"' :: rest) = some (cs, rest) := by
  intro cs
  induction cs with
  | nil =>
    intro rest
    rfl
  | cons c cs ih =>
    intro rest
    rw [escList, List.append_assoc, parseStringBody_esc, ih]
    rfl

/-! ## Round-trip, part 4: heads of rendered output and whitespace -/

theorem dumpsL_head (v : Json) : ∃ c t, dumpsL v = c :: t ∧ isWsChar c = false ∧
    c ≠ ']' ∧ c ≠ '\x7d' ∧ c ≠ ',' := by
  cases v with
  | null => exact ⟨'n', _, rfl, by decide, by decide, by decide, by decide⟩
  | bool b =>
    cases b with
    | true => exact ⟨'t', _, rfl, by decide, by decide, by decide, by decide⟩
    | false => exact ⟨'f', _, rfl, by decide, by decide, by decide, by decide⟩
  | num i =>
    cases i with
    | ofNat n =>
      rcases hh : natDigits n with _ | ⟨d, ds⟩
      · exact absurd hh (natDigits_ne_nil _)
      · have hd : isDigitCh d = true := natDigits_digits n d (hh ▸ List.mem_cons_self ..)
        have hkw := digit_not_kw hd
        refine ⟨d, ds, ?_, digit_not_ws hd, hkw.2.2.2.2.2.2.2.1,
          hkw.2.2.2.2.2.2.2.2.1, hkw.2.2.2.2.2.2.2.2.2⟩
        show natDigits n = d :: ds
        exact hh
    | negSucc m => exact ⟨'-', _, rfl, by decide, by decide, by decide, by decide⟩
  | str s => exact ⟨'"', _, rfl, by decide, by decide, by decide, by decide⟩
  | arr vs => exact ⟨'[', _, rfl, by decide, by decide, by decide, by decide⟩
  | obj kvs => exact ⟨'\x7b', _, rfl, by decide, by decide, by decide, by decide⟩

theorem skipWs_dumpsL (v : Json) (x : List Char) :
    skipWs (dumpsL v ++ x) = dumpsL v ++ x := by
  obtain ⟨c, t, hh, hws, -, -, -⟩ := dumpsL_head v
  rw [hh, List.cons_append, skipWs_cons_false hws]

theorem parseValue_cons_space (f : Nat) (cs : List Char) :
    parseValue f (' ' :: cs) = parseValue f cs := by
  cases f with
  | zero => rfl
  | succ f =>
    rw [parseValue, parseValue,
      show skipWs (' ' :: cs) = skipWs cs from by rw [skipWs, if_pos (by decide)]]

theorem parseElems_cons_space (f : Nat) (cs : List Char) :
    parseElems f (' ' :: cs) = parseElems f cs := by
  cases f with
  | zero => rfl
  | succ f => rw [parseElems, parseElems, parseValue_cons_space]

theorem parseMembers_cons_space (f : Nat) (cs : List Char) :
    parseMembers f (' ' :: cs) = parseMembers f cs := by
  cases f with
  | zero => rfl
  | succ f =>
    rw [parseMembers, parseMembers,
      show skipWs (' ' :: cs) = skipWs cs from by rw [skipWs, if_pos (by decide)]]

/-! ## Round-trip, part 5: the atom cases of `parseValue` -/

theorem parseValue_null (f : Nat) (rest : List Char) :
    parseValue (f + 1) (['n', 'u', 'l', 'l'] ++ rest) = some (Json.null, rest) := by
  rw [List.cons_append, parseValue, skipWs_cons_false (by decide)]
  simp [dropPre]

theorem parseValue_true (f : Nat) (rest : List Char) :
    parseValue (f + 1) (['t', 'r', 'u', 'e'] ++ rest) = some (Json.bool true, rest) := by
  rw [List.cons_append, parseValue, skipWs_cons_false (by decide)]
  simp [dropPre]

theorem parseValue_false (f : Nat) (rest : List Char) :
    parseValue (f + 1) (['f', 'a', 'l', 's', 'e'] ++ rest) = some (Json.bool false, rest) := by
  rw [List.cons_append, parseValue, skipWs_cons_false (by decide)]
  simp [dropPre]

theorem parseValue_str (f : Nat) (s : String) (rest : List Char) :
    parseValue (f + 1) (dumpsStr s ++ rest) = some (Json.str s, rest) := by
  rw [dumpsStr, List.cons_append, List.append_assoc, List.cons_append, List.nil_append,
    parseValue, skipWs_cons_false (by decide)]
  simp [parseStringBody_escList, show String.mk s.data = s from rfl]

theorem parseValue_num (f : Nat) (i : Int) (rest : List Char)
    (hrest : ∀ d, rest.head? = some d → isDigitCh d = false) :
    parseValue (f + 1) (intChars i ++ rest) = some (Json.num i, rest) := by
  cases i with
  | ofNat n =>
    rcases hh : natDigits n with _ | ⟨d, ds⟩
    · exact absurd hh (natDigits_ne_nil _)
    · have hd : isDigitCh d = true := natDigits_digits n d (hh ▸ List.mem_cons_self ..)
      have hkw := digit_not_kw hd
      have hnum := parseNumber_intChars (Int.ofNat n) rest hrest
      show parseValue (f + 1) (natDigits n ++ rest) = some (Json.num (Int.ofNat n), rest)
      rw [hh, List.cons_append, parseValue, skipWs_cons_false (digit_not_ws hd)]
      simp only [hkw.1, hkw.2.1, hkw.2.2.1, hkw.2.2.2.1, hkw.2.2.2.2.1, hkw.2.2.2.2.2.1,
        hd, Bool.or_true, if_false, if_true]
      rw [← List.cons_append, ← hh]
      show (parseNumber (natDigits n ++ rest)).map (fun p => (Json.num p.1, p.2))
        = some (Json.num (Int.ofNat n), rest)
      rw [show (natDigits n : List Char) ++ rest = intChars (Int.ofNat n) ++ rest from rfl, hnum]
      rfl
  | negSucc m =>
    have hnum := parseNumber_intChars (Int.negSucc m) rest hrest
    show parseValue (f + 1) ('-' :: (natDigits (m + 1) ++ rest)) = some (Json.num (Int.negSucc m), rest)
    rw [parseValue, skipWs_cons_false (by decide)]
    simp only [show (('-' : Char) = '"') = False from by simp,
      show (('-' : Char) = '\x7b') = False from by simp,
      show (('-' : Char) = '[') = False from by simp,
      show (('-' : Char) = 'n') = False from by simp,
      show (('-' : Char) = 't') = False from by simp,
      show (('-' : Char) = 'f') = False from by simp,
      show (decide (('-' : Char) = '-') || isDigitCh '-') = true from by decide,
      if_false, if_true]
    rw [show ('-' :: (natDigits (m + 1) ++ rest) : List Char)
      = intChars (Int.negSucc m) ++ rest from rfl, hnum]
    rfl

/-! ## Round-trip, part 6: the container cases of `parseValue` -/

theorem parseValue_arr_nil (f : Nat) (rest : List Char) :
    parseValue (f + 1) ('[' :: ']' :: rest) = some (Json.arr [], rest) := by
  rw [parseValue, skipWs_cons_false (by decide)]
  simp [show skipWs (']' :: rest) = ']' :: rest from skipWs_cons_false (by decide) rest]

theorem parseValue_obj_nil (f : Nat) (rest : List Char) :
    parseValue (f + 1) ('\x7b' :: '\x7d' :: rest) = some (Json.obj [], rest) := by
  rw [parseValue, skipWs_cons_false (by decide)]
  simp [show skipWs ('\x7d' :: rest) = '\x7d' :: rest from skipWs_cons_false (by decide) rest]

theorem dumpsElems_cons_eq (e : Json) (es : List Json) :
    ∃ X, dumpsElems (e :: es) = dumpsL e ++ X := by
  cases es with
  | nil =>
    refine ⟨[], ?_⟩
    rw [dumpsElems, List.append_nil]
  | cons x xs => exact ⟨_, rfl⟩

theorem dumpsMembers_cons_eq (kv : String × Json) (ms : List (String × Json)) :
    ∃ X, dumpsMembers (kv :: ms) = '"' :: X := by
  obtain ⟨k, v⟩ := kv
  cases ms with
  | nil => exact ⟨_, rfl⟩
  | cons kv2 ms2 => exact ⟨_, rfl⟩

theorem parseValue_arr_cons (f : Nat) (e : Json) (es : List Json) (rest : List Char) :
    parseValue (f + 1) ('[' :: (dumpsElems (e :: es) ++ ']' :: rest))
      = (parseElems f (dumpsElems (e :: es) ++ ']' :: rest)).map
          (fun p => (Json.arr p.1, p.2)) := by
  obtain ⟨X, hX⟩ := dumpsElems_cons_eq e es
  obtain ⟨c, t, hh, hws, hbr, -, -⟩ := dumpsL_head e
  have hshape : dumpsElems (e :: es) ++ ']' :: rest = c :: (t ++ (X ++ ']' :: rest)) := by
    rw [hX, hh]
    simp [List.append_assoc]
  rw [parseValue, skipWs_cons_false (by decide)]
  simp only [show (('[' : Char) = '"') = False from by simp,
    show (('[' : Char) = '\x7b') = False from by simp,
    show (('[' : Char) = '[') = True from by simp, if_false, if_true]
  rw [hshape, skipWs_cons_false hws]
  simp only [hbr, if_false]

theorem parseValue_obj_cons (f : Nat) (kv : String × Json) (ms : List (String × Json))
    (rest : List Char) :
    parseValue (f + 1) ('\x7b' :: (dumpsMembers (kv :: ms) ++ '\x7d' :: rest))
      = (parseMembers f (dumpsMembers (kv :: ms) ++ '\x7d' :: rest)).map
          (fun p => (Json.obj p.1, p.2)) := by
  obtain ⟨X, hX⟩ := dumpsMembers_cons_eq kv ms
  have hshape : dumpsMembers (kv :: ms) ++ '\x7d' :: rest = '"' :: (X ++ '\x7d' :: rest) := by
    rw [hX]
    simp
  rw [parseValue, skipWs_cons_false (by decide)]
  simp only [show (('\x7b' : Char) = '"') = False from by simp,
    show (('\x7b' : Char) = '\x7b') = True from by simp, if_false, if_true]
  rw [hshape, skipWs_cons_false (by decide)]
  simp only [show (('"' : Char) = '\x7d') = False from by simp, if_false]

/-! ## Round-trip, part 7: parsing inverts serialization -/

mutual

theorem rt_val : ∀ (v : Json) (f : Nat) (rest : List Char),
    (dumpsL v).length < f →
    (∀ d, rest.head? = some d → isDigitCh d = false) →
    parseValue f (dumpsL v ++ rest) = some (v, rest)
  | Json.null, f, rest, hf, _ => by
    cases f with
    | zero => exact absurd hf (Nat.not_lt_zero _)
    | succ f => exact parseValue_null f rest
  | Json.bool true, f, rest, hf, _ => by
    cases f with
    | zero => exact absurd hf (Nat.not_lt_zero _)
    | succ f => exact parseValue_true f rest
  | Json.bool false, f, rest, hf, _ => by
    cases f with
    | zero => exact absurd hf (Nat.not_lt_zero _)
    | succ f => exact parseValue_false f rest
  | Json.num i, f, rest, hf, hrest => by
    cases f with
    | zero => exact absurd hf (Nat.not_lt_zero _)
    | succ f => exact parseValue_num f i rest hrest
  | Json.str s, f, rest, hf, _ => by
    cases f with
    | zero => exact absurd hf (Nat.not_lt_zero _)
    | succ f => exact parseValue_str f s rest
  | Json.arr [], f, rest, hf, _ => by
    cases f with
    | zero => exact absurd hf (Nat.not_lt_zero _)
    | succ f =>
      show parseValue (f + 1) ('[' :: ']' :: rest) = some (Json.arr [], rest)
      exact parseValue_arr_nil f rest
  | Json.arr (e :: es), f, rest, hf, _ => by
    cases f with
    | zero => exact absurd hf (Nat.not_lt_zero _)
    | succ f =>
      have hlen : (dumpsL (Json.arr (e :: es))).length = (dumpsElems (e :: es)).length + 2 := by
        show ('[' :: (dumpsElems (e :: es) ++ [']'])).length = _
        simp
      have hsh : dumpsL (Json.arr (e :: es)) ++ rest
          = '[' :: (dumpsElems (e :: es) ++ ']' :: rest) := by
        show ('[' :: (dumpsElems (e :: es) ++ [']'])) ++ rest = _
        simp [List.append_assoc]
      rw [hsh, parseValue_arr_cons, rt_elems e es f rest (by rw [hlen] at hf; omega)]
      rfl
  | Json.obj [], f, rest, hf, _ => by
    cases f with
    | zero => exact absurd hf (Nat.not_lt_zero _)
    | succ f =>
      show parseValue (f + 1) ('\x7b' :: '\x7d' :: rest) = some (Json.obj [], rest)
      exact parseValue_obj_nil f rest
  | Json.obj (kv :: ms), f, rest, hf, _ => by
    cases f with
    | zero => exact absurd hf (Nat.not_lt_zero _)
    | succ f =>
      have hlen : (dumpsL (Json.obj (kv :: ms))).length
          = (dumpsMembers (kv :: ms)).length + 2 := by
        show ('\x7b' :: (dumpsMembers (kv :: ms) ++ ['\x7d'])).length = _
        simp
      have hsh : dumpsL (Json.obj (kv :: ms)) ++ rest
          = '\x7b' :: (dumpsMembers (kv :: ms) ++ '\x7d' :: rest) := by
        show ('\x7b' :: (dumpsMembers (kv :: ms) ++ ['\x7d'])) ++ rest = _
        simp [List.append_assoc]
      rw [hsh, parseValue_obj_cons, rt_members kv ms f rest (by rw [hlen] at hf; omega)]
      rfl
termination_by v _ _ _ _ => sizeOf v

theorem rt_elems : ∀ (e : Json) (es : List Json) (f : Nat) (rest : List Char),
    (dumpsElems (e :: es)).length + 1 < f →
    parseElems f (dumpsElems (e :: es) ++ ']' :: rest) = some ([e] ++ es, rest)
  | e, [], f, rest, hf => by
    cases f with
    | zero => exact absurd hf (Nat.not_lt_zero _)
    | succ f =>
      have hone : dumpsElems [e] = dumpsL e := rfl
      rw [hone] at hf
      rw [hone, parseElems,
        rt_val e f (']' :: rest) (by omega)
          (by intro d hd; rw [← Option.some.inj hd]; decide)]
      simp [show skipWs (']' :: rest) = ']' :: rest from skipWs_cons_false (by decide) rest]
  | e, x :: xs, f, rest, hf => by
    cases f with
    | zero => exact absurd hf (Nat.not_lt_zero _)
    | succ f =>
      have hcons : dumpsElems (e :: x :: xs) = dumpsL e ++ ',' :: ' ' :: dumpsElems (x :: xs) := rfl
      rw [hcons] at hf
      have hflen : (dumpsL e).length + ((dumpsElems (x :: xs)).length + 2) + 1 < f + 1 := by
        simpa [List.length_append] using hf
      have hsh : (dumpsL e ++ ',' :: ' ' :: dumpsElems (x :: xs)) ++ ']' :: rest
          = dumpsL e ++ (',' :: (' ' :: (dumpsElems (x :: xs) ++ ']' :: rest))) := by
        simp [List.append_assoc]
      rw [hcons, hsh, parseElems,
        rt_val e f (',' :: (' ' :: (dumpsElems (x :: xs) ++ ']' :: rest))) (by omega)
          (by intro d hd; rw [← Option.some.inj hd]; decide)]
      simp [show skipWs (',' :: (' ' :: (dumpsElems (x :: xs) ++ ']' :: rest)))
          = ',' :: (' ' :: (dumpsElems (x :: xs) ++ ']' :: rest))
          from skipWs_cons_false (by decide) _,
        parseElems_cons_space, rt_elems x xs f rest (by omega)]
termination_by e es _ _ _ => sizeOf e + sizeOf es

theorem rt_members : ∀ (kv : String × Json) (ms : List (String × Json)) (f : Nat)
      (rest : List Char),
    (dumpsMembers (kv :: ms)).length + 1 < f →
    parseMembers f (dumpsMembers (kv :: ms) ++ '\x7d' :: rest) = some ([kv] ++ ms, rest)
  | (k, v), [], f, rest, hf => by
    cases f with
    | zero => exact absurd hf (Nat.not_lt_zero _)
    | succ f =>
      have hone : dumpsMembers [(k, v)] = dumpsStr k ++ ':' :: ' ' :: dumpsL v := rfl
      rw [hone] at hf
      have hflen : ((dumpsStr k).length + ((dumpsL v).length + 2)) + 1 < f + 1 := by
        simpa [List.length_append] using hf
      have hsh : (dumpsStr k ++ ':' :: ' ' :: dumpsL v) ++ '\x7d' :: rest
          = '"' :: (escList k.data ++ '"' :: (':' :: (' ' :: (dumpsL v ++ '\x7d' :: rest)))) := by
        rw [dumpsStr]
        simp [List.append_assoc]
      rw [hone, hsh, parseMembers,
        show skipWs ('"' :: (escList k.data ++ '"' :: (':' :: (' ' :: (dumpsL v ++ '\x7d' :: rest)))))
          = '"' :: (escList k.data ++ '"' :: (':' :: (' ' :: (dumpsL v ++ '\x7d' :: rest))))
          from skipWs_cons_false (by decide) _]
      simp [parseStringBody_escList,
        show skipWs (':' :: (' ' :: (dumpsL v ++ '\x7d' :: rest)))
          = ':' :: (' ' :: (dumpsL v ++ '\x7d' :: rest)) from skipWs_cons_false (by decide) _,
        parseValue_cons_space,
        rt_val v f ('\x7d' :: rest) (by omega)
          (by intro d hd; rw [← Option.some.inj hd]; decide),
        show skipWs ('\x7d' :: rest) = '\x7d' :: rest from skipWs_cons_false (by decide) rest,
        show String.mk k.data = k from rfl]
  | (k, v), kv2 :: ms2, f, rest, hf => by
    cases f with
    | zero => exact absurd hf (Nat.not_lt_zero _)
    | succ f =>
      have hcons : dumpsMembers ((k, v) :: kv2 :: ms2)
          = dumpsStr k ++ ':' :: ' ' :: dumpsL v ++ ',' :: ' ' :: dumpsMembers (kv2 :: ms2) := rfl
      rw [hcons] at hf
      have hflen : ((dumpsStr k).length + ((dumpsL v).length
          + ((dumpsMembers (kv2 :: ms2)).length + 4))) + 1 < f + 1 := by
        simpa [List.length_append] using hf
      have hsh : (dumpsStr k ++ ':' :: ' ' :: dumpsL v ++ ',' :: ' ' :: dumpsMembers (kv2 :: ms2))
            ++ '\x7d' :: rest
          = '"' :: (escList k.data ++ '"' :: (':' :: (' ' :: (dumpsL v
              ++ ',' :: (' ' :: (dumpsMembers (kv2 :: ms2) ++ '\x7d' :: rest)))))) := by
        rw [dumpsStr]
        simp [List.append_assoc]
      rw [hcons, hsh, parseMembers,
        show skipWs ('"' :: (escList k.data ++ '"' :: (':' :: (' ' :: (dumpsL v
              ++ ',' :: (' ' :: (dumpsMembers (kv2 :: ms2) ++ '\x7d' :: rest)))))))
          = '"' :: (escList k.data ++ '"' :: (':' :: (' ' :: (dumpsL v
              ++ ',' :: (' ' :: (dumpsMembers (kv2 :: ms2) ++ '\x7d' :: rest))))))
          from skipWs_cons_false (by decide) _]
      simp [parseStringBody_escList,
        show skipWs (':' :: (' ' :: (dumpsL v
              ++ ',' :: (' ' :: (dumpsMembers (kv2 :: ms2) ++ '\x7d' :: rest)))))
          = ':' :: (' ' :: (dumpsL v
              ++ ',' :: (' ' :: (dumpsMembers (kv2 :: ms2) ++ '\x7d' :: rest))))
          from skipWs_cons_false (by decide) _,
        parseValue_cons_space,
        rt_val v f (',' :: (' ' :: (dumpsMembers (kv2 :: ms2) ++ '\x7d' :: rest))) (by omega)
          (by intro d hd; rw [← Option.some.inj hd]; decide),
        show skipWs (',' :: (' ' :: (dumpsMembers (kv2 :: ms2) ++ '\x7d' :: rest)))
          = ',' :: (' ' :: (dumpsMembers (kv2 :: ms2) ++ '\x7d' :: rest))
          from skipWs_cons_false (by decide) _,
        parseMembers_cons_space, rt_members kv2 ms2 f rest (by omega),
        show String.mk k.data = k from rfl]
termination_by kv ms _ _ _ => sizeOf kv + sizeOf ms

end

/-- Parsing inverts serialization: `json.loads` of `json.dumps` returns
the original value, for every JSON value. -/
theorem loads_dumpsL (v : Json) : loads (dumpsL v) = some v := by
  have h := rt_val v ((dumpsL v).length + 1) [] (by omega)
    (by intro d hd; exact absurd hd (by simp))
  rw [List.append_nil] at h
  unfold loads
  rw [h]
  rfl

/-- On a dumped object, the first brace is the first character and the
last brace is the last character, so the extracted span is the whole
serialization. -/
theorem extract_dumps_obj (kvs : List (String × Json)) :
    extractJsonSpan (dumps (Json.obj kvs)).data = some (dumpsL (Json.obj kvs)) := by
  have hdata : (dumps (Json.obj kvs)).data = '\x7b' :: (dumpsMembers kvs ++ ['\x7d']) := rfl
  have hdl : dumpsL (Json.obj kvs) = '\x7b' :: (dumpsMembers kvs ++ ['\x7d']) := rfl
  have hf : pyFind ('\x7b' :: (dumpsMembers kvs ++ ['\x7d'])) '\x7b' = some 0 := by
    rw [pyFind, pyFindAux, if_pos rfl]
  have hrev : ('\x7b' :: (dumpsMembers kvs ++ ['\x7d'])).reverse
      = '\x7d' :: ((dumpsMembers kvs).reverse ++ ['\x7b']) := by
    simp
  have hlen : ('\x7b' :: (dumpsMembers kvs ++ ['\x7d'])).length
      = (dumpsMembers kvs).length + 2 := by
    simp
  have hr : pyRfind ('\x7b' :: (dumpsMembers kvs ++ ['\x7d'])) '\x7d'
      = some ((dumpsMembers kvs).length + 1) := by
    rw [pyRfind, hrev, pyFind, pyFindAux, if_pos rfl]
    simp only [Option.map_some']
    rw [hlen]
    simp
  rw [hdata, hdl, extractJsonSpan, hf, hr]
  simp only [show (0 < (dumpsMembers kvs).length + 1 + 1) = True from by simp, if_true]
  rw [List.drop_zero]
  have htake : (dumpsMembers kvs).length + 1 + 1 - 0
      = ('\x7b' :: (dumpsMembers kvs ++ ['\x7d'])).length := by
    rw [hlen]
    omega
  rw [htake, List.take_length]

/-- Claim C10: the normalizer is idempotent on its own output.  Whatever
summary `S` an earlier run produced (parsed record or placeholder),
feeding `json.dumps(S)` back as the raw analysis response, with any source
text of stripped length at least 20, reproduces `S` exactly: the span
from the first to the last brace is the whole serialization, and parsing
inverts serialization. -/
theorem claim_C10 (text text2 : String) (resp : Option String)
    (h : 20 ≤ (pyStrip text2.data).length) :
    summarize_with_gemini text2 (some (dumps (summarize_with_gemini text resp)))
      = summarize_with_gemini text resp := by
  obtain ⟨kvs, hS⟩ := summarize_obj text resp
  rw [hS]
  rw [summarize_with_gemini, if_neg (summarize_not_short h)]
  simp only [extract_dumps_obj kvs, loads_dumpsL (Json.obj kvs)]

/-- Witness for C10: round-tripping the "too short" placeholder through
`dumps` and a second normalizer run reproduces it. -/
theorem claim_C10_witness :
    20 ≤ (pyStrip ("this text is long enough to analyze" : String).data).length ∧
      summarize_with_gemini "this text is long enough to analyze"
          (some (dumps (summarize_with_gemini "hi" none)))
        = summarize_with_gemini "hi" none :=
  ⟨by decide, claim_C10 "hi" "this text is long enough to analyze" none (by decide)⟩
